import Mathlib

/-!
Verification of the aggregation and reporting layer of the
personal-expense-tracker application (Flask + SQLAlchemy over SQLite).

The embedding models:
* `expenses.date` columns as calendar dates (`Date`); SQLite stores them as
  ISO `YYYY-MM-DD` strings, and for valid dates SQLite string comparison
  coincides with lexicographic comparison of the (year, month, day) triple,
  which is how `Date.le` is defined;
* `amount` (a SQL float; the spec reads it as an exact decimal) as an exact
  integer quantity such as a count of cents, since every claim under
  scrutiny is about exact sums;
* SQLite `strftime('%Y', d)` / `strftime('%m', d)` / `strftime('%Y-%m', d)`
  as zero-padded decimal renderings of the date components (SQLite pads the
  year to four digits and the month to two), Python `str(n)` as the unpadded
  rendering, and Python `str.zfill` as left zero-padding;
* the expense table as a list in rowid (insertion) order, which is the order
  SQLite yields rows in when no ORDER BY clause refines ties.
-/

namespace ExpenseTracker

/-- A calendar date as stored in the `expenses.date` column. -/
structure Date where
  year : Nat
  month : Nat
  day : Nat
deriving DecidableEq, Repr

/-- Date order: lexicographic on (year, month, day).  This models SQLite's
comparison of ISO `YYYY-MM-DD` strings, which agrees with the lexicographic
numeric order whenever the stored dates are valid (zero-padded, year ≤ 9999). -/
def Date.le (a b : Date) : Prop :=
  a.year < b.year ∨
    (a.year = b.year ∧ (a.month < b.month ∨ (a.month = b.month ∧ a.day ≤ b.day)))

instance : LE Date := ⟨Date.le⟩

instance Date.decLE (a b : Date) : Decidable (a ≤ b) := by
  change Decidable (Date.le a b)
  unfold Date.le
  infer_instance

theorem Date.le_def (a b : Date) :
    a ≤ b ↔ (a.year < b.year ∨
      (a.year = b.year ∧ (a.month < b.month ∨ (a.month = b.month ∧ a.day ≤ b.day)))) :=
  Iff.rfl

theorem Date.le_refl (a : Date) : a ≤ a := by
  rw [Date.le_def]; omega

theorem Date.le_total (a b : Date) : a ≤ b ∨ b ≤ a := by
  rw [Date.le_def, Date.le_def]; omega

theorem Date.le_trans {a b c : Date} (h₁ : a ≤ b) (h₂ : b ≤ c) : a ≤ c := by
  rw [Date.le_def] at h₁ h₂ ⊢; omega

/-- A date the Python `datetime.date` type can actually hold (these are the
only values the ORM ever stores in a `Date` column). -/
def Date.Valid (d : Date) : Prop :=
  1 ≤ d.year ∧ d.year ≤ 9999 ∧ 1 ≤ d.month ∧ d.month ≤ 12 ∧ 1 ≤ d.day ∧ d.day ≤ 31

instance (d : Date) : Decidable d.Valid := by
  unfold Date.Valid; infer_instance

/-- Decimal digits of `n`, most significant first; fuel-driven so that the
definition is structural and reduces inside the kernel. -/
def natDigitsAux : Nat → Nat → List Char
  | 0, _ => []
  | fuel + 1, n =>
    if n < 10 then [Nat.digitChar n]
    else natDigitsAux fuel (n / 10) ++ [Nat.digitChar (n % 10)]

/-- Decimal digits of `n`, most significant first. -/
def natDigits (n : Nat) : List Char := natDigitsAux (n + 1) n

theorem natDigitsAux_congr : ∀ (f g n : Nat), n < f → n < g →
    natDigitsAux f n = natDigitsAux g n := by
  intro f
  induction f with
  | zero => intro g n hf _; omega
  | succ f ih =>
    intro g n hf hg
    cases g with
    | zero => omega
    | succ g =>
      show natDigitsAux (f + 1) n = natDigitsAux (g + 1) n
      unfold natDigitsAux
      by_cases h : n < 10
      · simp [h]
      · simp only [h, if_false]
        rw [ih g (n / 10) (by omega) (by omega)]

theorem natDigits_eq (n : Nat) :
    natDigits n = if n < 10 then [Nat.digitChar n]
      else natDigits (n / 10) ++ [Nat.digitChar (n % 10)] := by
  have hstep : natDigitsAux (n + 1) n = if n < 10 then [Nat.digitChar n]
      else natDigitsAux n (n / 10) ++ [Nat.digitChar (n % 10)] := rfl
  by_cases h : n < 10
  · show natDigitsAux (n + 1) n = _
    rw [hstep]
    simp [h]
  · show natDigitsAux (n + 1) n = _
    rw [hstep]
    simp only [h, if_false]
    rw [natDigitsAux_congr n (n / 10 + 1) (n / 10) (by omega) (by omega)]
    rfl

/-- Value of a list of decimal digit characters (the way Python `int` reads
a digit string); leading zeros are ignored. -/
def digitsVal (cs : List Char) : Nat :=
  cs.foldl (fun a c => a * 10 + (c.toNat - 48)) 0

theorem digitChar_val : ∀ m, m < 10 → (Nat.digitChar m).toNat - 48 = m := by decide

theorem digitsVal_append_digit (cs : List Char) (c : Char) :
    digitsVal (cs ++ [c]) = digitsVal cs * 10 + (c.toNat - 48) := by
  unfold digitsVal
  rw [List.foldl_append]
  rfl

theorem digitsVal_natDigits (n : Nat) : digitsVal (natDigits n) = n := by
  induction n using Nat.strong_induction_on with
  | _ n ih =>
    rw [natDigits_eq]
    by_cases h : n < 10
    · simp only [h, if_true]
      show 0 * 10 + ((Nat.digitChar n).toNat - 48) = n
      rw [digitChar_val n h]
      omega
    · simp only [h, if_false]
      rw [digitsVal_append_digit, ih (n / 10) (by omega), digitChar_val (n % 10) (by omega)]
      omega

theorem digitsVal_replicate_zero (k : Nat) (cs : List Char) :
    digitsVal (List.replicate k '0' ++ cs) = digitsVal cs := by
  unfold digitsVal
  rw [List.foldl_append]
  have h : List.foldl (fun a c => a * 10 + (c.toNat - 48)) 0 (List.replicate k '0') = 0 := by
    induction k with
    | zero => rfl
    | succ k ihk => rw [List.replicate_succ]; exact ihk
  rw [h]

theorem natDigits_length_pos (n : Nat) : 1 ≤ (natDigits n).length := by
  rw [natDigits_eq]
  by_cases h : n < 10 <;> simp [h]

theorem natDigits_length_ge : ∀ (k n : Nat), 10 ^ k ≤ n →
    k + 1 ≤ (natDigits n).length := by
  intro k
  induction k with
  | zero => intro n _; exact natDigits_length_pos n
  | succ k ih =>
    intro n hn
    have h10 : ¬ n < 10 := by
      have : 10 ≤ 10 ^ (k + 1) := by
        calc 10 = 10 ^ 1 := by norm_num
        _ ≤ 10 ^ (k + 1) := Nat.pow_le_pow_right (by norm_num) (by omega)
      omega
    rw [natDigits_eq]
    simp only [h10, if_false, List.length_append, List.length_cons, List.length_nil]
    have hdiv : 10 ^ k ≤ n / 10 := by
      rw [Nat.le_div_iff_mul_le (by norm_num)]
      calc 10 ^ k * 10 = 10 ^ (k + 1) := by ring
      _ ≤ n := hn
    have := ih (n / 10) hdiv
    omega

/-- Python `str` on a natural number. -/
def numStr (n : Nat) : String := String.mk (natDigits n)

/-- Zero-padded decimal rendering of width `w` (SQLite `strftime` pads `%Y`
to four and `%m` to two digits this way). -/
def padNum (w n : Nat) : String :=
  String.mk (List.replicate (w - (natDigits n).length) '0' ++ natDigits n)

/-- Python `str.zfill`: left-pad with `'0'` to at least width `w`. -/
def zfill (w : Nat) (s : String) : String :=
  String.mk (List.replicate (w - s.data.length) '0' ++ s.data)

/-- Numeric value of a digit string, as Python `int` would read it. -/
def parseNat (s : String) : Nat := digitsVal s.data

theorem zfill_numStr (w n : Nat) : zfill w (numStr n) = padNum w n := rfl

theorem parseNat_padNum (w n : Nat) : parseNat (padNum w n) = n := by
  show digitsVal (List.replicate (w - (natDigits n).length) '0' ++ natDigits n) = n
  rw [digitsVal_replicate_zero, digitsVal_natDigits]

theorem padNum_injective {w a b : Nat} (h : padNum w a = padNum w b) : a = b := by
  have := congrArg parseNat h
  rwa [parseNat_padNum, parseNat_padNum] at this

theorem padNum_eq_numStr {w n : Nat} (h : w ≤ (natDigits n).length) :
    padNum w n = numStr n := by
  unfold padNum numStr
  rw [Nat.sub_eq_zero_of_le h, List.replicate_zero, List.nil_append]

theorem padNum_four_eq_numStr {year : Nat} (h : 1000 ≤ year) :
    padNum 4 year = numStr year := by
  apply padNum_eq_numStr
  exact natDigits_length_ge 3 year (by norm_num; omega)

/-- SQLite `strftime('%Y', date)`: the year, zero-padded to four digits. -/
def strftimeY (d : Date) : String := padNum 4 d.year

/-- SQLite `strftime('%m', date)`: the month, zero-padded to two digits. -/
def strftimeM (d : Date) : String := padNum 2 d.month

/-- SQLite `strftime('%Y-%m', date)`: the month bucket label used by the
dashboard trend query. -/
def strftimeYM (d : Date) : String := padNum 4 d.year ++ "-" ++ padNum 2 d.month

/-- A row of the `expenses` table.  The `created_at`/`updated_at` timestamps
are not read by any query modelled here and are omitted; `amount` (a SQL
float, read by the spec as an exact decimal) is modelled as an exact integer
quantity such as a count of cents, which the claims' sums and equalities
never distinguish from any other exact additive scalar. -/
structure Expense where
  id : Nat
  user_id : Nat
  amount : Int
  category : String
  date : Date
  description : Option String := none
deriving DecidableEq, Repr

/-- A row of the `users` table (`role` has column default `'user'`). -/
structure UserRec where
  id : Nat
  username : String
  email : String
  password_hash : String
  role : String := "user"
deriving DecidableEq, Repr

/-- The database: both tables, each as a list of rows in rowid (insertion)
order, which is the order SQLite yields rows in absent an ORDER BY. -/
structure Store where
  users : List UserRec := []
  expenses : List Expense := []
deriving DecidableEq, Repr

/-- All stored dates are values `datetime.date` can hold (the ORM only ever
writes such values into a `Date` column). -/
def Store.ValidDates (s : Store) : Prop := ∀ e ∈ s.expenses, e.date.Valid

instance (s : Store) : Decidable s.ValidDates := by
  unfold Store.ValidDates; infer_instance

/-- `filter_by(user_id=user_id)` on the expenses table. -/
def userExpenses (s : Store) (uid : Nat) : List Expense :=
  s.expenses.filter (fun e => decide (e.user_id = uid))

/-- SQL `SUM(amount)` over a set of rows: `NULL` (here `none`) iff the set is
empty, otherwise the sum. -/
def sqlSumAmounts (l : List Expense) : Option Int :=
  if l.isEmpty then none else some ((l.map (fun e => e.amount)).sum)

/-- Python's `x or 0.0` applied to a `scalar()` result: `None` and `0.0` are
falsy and give `0.0`; anything else passes through. -/
def pyOrZero (x : Option Int) : Int :=
  match x with
  | none => 0
  | some v => if v = 0 then 0 else v

/-- `db.session.query(func.sum(Expense.amount)).filter_by(user_id=user_id)
.scalar() or 0.0` — the dashboard's total and `User.get_total_expenses`. -/
def totalAll (s : Store) (uid : Nat) : Int :=
  pyOrZero (sqlSumAmounts (userExpenses s uid))

/-- `today.replace(day=1, hour=0, ...)`: the SQLite Date bind processor keeps
only the year/month/day of the datetime, so the bound comparison value is the
first calendar day of `today`'s month. -/
def firstDayOfMonth (today : Date) : Date := ⟨today.year, today.month, 1⟩

/-- The dashboard's `monthly_expenses` query: sum of amounts over the user's
expenses with `date >= first_day`, with `or 0.0` on the scalar. -/
def monthlyExpensesTotal (s : Store) (uid : Nat) (today : Date) : Int :=
  pyOrZero (sqlSumAmounts
    ((userExpenses s uid).filter (fun e => decide (firstDayOfMonth today ≤ e.date))))

/-- Total of the rows of `l` whose key equals `c` — one output row of a
`GROUP BY`/`SUM(amount)` query. -/
def fiberTotal (key : Expense → String) (l : List Expense) (c : String) : Int :=
  ((l.filter (fun e => decide (key e = c))).map (fun e => e.amount)).sum

/-- `GROUP BY key` with `SUM(amount)`, producing one row per key in `ks`. -/
def groupSums (key : Expense → String) (ks : List String) (l : List Expense) :
    List (String × Int) :=
  ks.map (fun c => (c, fiberTotal key l c))

/-- `GROUP BY category` with `SUM(amount)` over `l`.  SQLite does not fix the
order of group rows absent an ORDER BY; first-appearance order is used here. -/
def byCategoryOf (l : List Expense) : List (String × Int) :=
  groupSums (fun e => e.category) ((l.map (fun e => e.category)).dedup) l

/-- `User.get_expenses_by_category` / the dashboard's `category_data` query. -/
def byCategory (s : Store) (uid : Nat) : List (String × Int) :=
  byCategoryOf (userExpenses s uid)

/-- `User.get_monthly_expenses(year, month)`: category totals, filtered by
`strftime('%Y', date) == str(year)` when `year` is truthy and by
`strftime('%m', date) == str(month).zfill(2)` when `month` is truthy. -/
def getMonthlyExpenses (s : Store) (uid : Nat) (year month : Nat) :
    List (String × Int) :=
  let l0 := userExpenses s uid
  let l1 := if year ≠ 0 then
      l0.filter (fun e => decide (strftimeY e.date = numStr year)) else l0
  let l2 := if month ≠ 0 then
      l1.filter (fun e => decide (strftimeM e.date = zfill 2 (numStr month))) else l1
  byCategoryOf l2

/-- SQLite `ORDER BY` on a text column under the default BINARY collation:
byte-wise comparison, which for the ASCII `YYYY-MM` labels here is
lexicographic comparison of the character lists. -/
def strLe (a b : String) : Prop := a.data ≤ b.data

/-- Strict version of `strLe`. -/
def strLt (a b : String) : Prop := a.data < b.data

instance : DecidableRel strLe := fun a b => inferInstanceAs (Decidable (a.data ≤ b.data))

instance : DecidableRel strLt := fun a b => inferInstanceAs (Decidable (a.data < b.data))

instance : IsTotal String strLe := ⟨fun a b => le_total a.data b.data⟩

instance : IsTrans String strLe := ⟨fun _ _ _ h₁ h₂ => le_trans h₁ h₂⟩

theorem strLt_of_strLe_of_ne {a b : String} (h : strLe a b) (hne : a ≠ b) : strLt a b := by
  apply lt_of_le_of_ne h
  intro hdata
  apply hne
  cases a; cases b
  exact congrArg String.mk hdata

/-- The dashboard's `monthly_trend` query: expenses with `date >=
six_months_ago` (the bind processor keeps only the calendar date), grouped by
`strftime('%Y-%m', date)` and ordered ascending by that label. -/
def monthlyTrend (s : Store) (uid : Nat) (since : Date) : List (String × Int) :=
  let l := (userExpenses s uid).filter (fun e => decide (since ≤ e.date))
  groupSums (fun e => strftimeYM e.date)
    (List.insertionSort strLe ((l.map (fun e => strftimeYM e.date)).dedup)) l

/-- The dashboard's `yearly_expenses` query: rows `(strftime('%m', date),
SUM(amount))` over the user's expenses with `strftime('%Y', date) ==
str(current_year)`, grouped by month label. -/
def yearlyRows (s : Store) (uid : Nat) (year : Nat) : List (String × Int) :=
  let l := (userExpenses s uid).filter (fun e => decide (strftimeY e.date = numStr year))
  groupSums (fun e => strftimeM e.date) ((l.map (fun e => strftimeM e.date)).dedup) l

/-- One iteration of the dashboard's zero-filling loop:
`month_idx = int(item.month) - 1; if 0 <= month_idx < 12:
yearly_data[month_idx] = float(item.total)`. -/
def applyYearlyRow (acc : List Int) (r : String × Int) : List Int :=
  let idx : Int := (parseNat r.1 : Int) - 1
  if 0 ≤ idx ∧ idx < 12 then acc.set idx.toNat r.2 else acc

/-- The dashboard's `yearly_data`: `[0] * 12` updated in place from the
grouped rows. -/
def yearlySeries (s : Store) (uid : Nat) (year : Nat) : List Int :=
  (yearlyRows s uid year).foldl applyYearlyRow (List.replicate 12 0)

/-- `ORDER BY date DESC`: `a` may precede `b` iff `b.date <= a.date`.  SQLite
yields tied rows in rowid order, which a stable sort of the rowid-ordered
list reproduces. -/
def recentRel (a b : Expense) : Prop := b.date ≤ a.date

instance : DecidableRel recentRel := fun a b => Date.decLE b.date a.date

instance : IsTotal Expense recentRel :=
  ⟨fun a b => Date.le_total b.date a.date⟩

instance : IsTrans Expense recentRel :=
  ⟨fun _ _ _ h₁ h₂ => Date.le_trans h₂ h₁⟩

/-- The dashboard's `recent_expenses` query:
`Expense.query.filter_by(user_id=user_id).order_by(Expense.date.desc())
.limit(limit)` (the route passes `limit = 5`). -/
def recentExpenses (s : Store) (uid : Nat) (limit : Nat) : List Expense :=
  (List.insertionSort recentRel (userExpenses s uid)).take limit

/-- Everything the dashboard `index` route computes for the template.  The
route's `six_months_ago = today - timedelta(days=180)` is passed in as
`since`. -/
structure DashboardData where
  total_expenses : Int
  monthly_expenses : Int
  categories : List (String × Int)
  recent_expenses : List Expense
  yearly_data : List Int
  trend_months : List String
  trend_totals : List Int
deriving DecidableEq, Repr

/-- The dashboard `index` route as a state transformer: it only issues SELECT
queries, so the store it leaves behind is the store it was given. -/
def dashboardIndex (s : Store) (uid : Nat) (today since : Date) :
    Store × DashboardData :=
  (s,
    { total_expenses := totalAll s uid
      monthly_expenses := monthlyExpensesTotal s uid today
      categories := byCategory s uid
      recent_expenses := recentExpenses s uid 5
      yearly_data := yearlySeries s uid today.year
      trend_months := (monthlyTrend s uid since).map Prod.fst
      trend_totals := (monthlyTrend s uid since).map Prod.snd })

/-- Outcome of the `register` route for a submitted form. -/
inductive RegisterResult where
  | usernameExists
  | emailExists
  | ok
deriving DecidableEq, Repr

/-- Autoincrement primary key for a freshly inserted user row. -/
def nextUserId (s : Store) : Nat := (s.users.map (fun u => u.id)).foldl max 0 + 1

/-- The `register` route (POST, validated form): reject if the username is
taken, else reject if the email is taken, else insert a user whose role is
`'admin'` when `User.query.count() == 0` at registration time and the column
default `'user'` otherwise. -/
def register (s : Store) (username email pwhash : String) : Store × RegisterResult :=
  match s.users.find? (fun u => decide (u.username = username)) with
  | some _ => (s, .usernameExists)
  | none =>
    match s.users.find? (fun u => decide (u.email = email)) with
    | some _ => (s, .emailExists)
    | none =>
      let role := if s.users.length = 0 then "admin" else "user"
      let u : UserRec :=
        { id := nextUserId s, username := username, email := email,
          password_hash := pwhash, role := role }
      ({ s with users := s.users ++ [u] }, .ok)

theorem pyOrZero_sqlSumAmounts (l : List Expense) :
    pyOrZero (sqlSumAmounts l) = (l.map (fun e => e.amount)).sum := by
  unfold pyOrZero sqlSumAmounts
  by_cases h : l.isEmpty
  · rw [List.isEmpty_iff.mp h]
    simp
  · simp only [h, if_false]
    by_cases h0 : (l.map (fun e => e.amount)).sum = 0 <;> simp [h0]

theorem sum_map_filter_add (p : Expense → Bool) (l : List Expense) :
    ((l.filter p).map (fun e => e.amount)).sum
      + ((l.filter (fun e => !p e)).map (fun e => e.amount)).sum
      = (l.map (fun e => e.amount)).sum := by
  induction l with
  | nil => simp
  | cons a t ih =>
    cases h : p a <;> simp [List.filter_cons, h] <;> rw [← ih] <;> ring

theorem groupSums_snd_sum (key : Expense → String) :
    ∀ (ks : List String) (l : List Expense), ks.Nodup →
      (∀ e ∈ l, key e ∈ ks) →
      ((groupSums key ks l).map Prod.snd).sum = (l.map (fun e => e.amount)).sum := by
  intro ks
  induction ks with
  | nil =>
    intro l _ hcov
    cases l with
    | nil => simp [groupSums]
    | cons e t => exact absurd (hcov e (by simp)) (by simp)
  | cons c ks ih =>
    intro l hnd hcov
    obtain ⟨hc_notin, hnd'⟩ := List.nodup_cons.mp hnd
    have hfib : ∀ c' ∈ ks, fiberTotal key l c'
        = fiberTotal key (l.filter (fun e => !decide (key e = c))) c' := by
      intro c' hc'
      unfold fiberTotal
      rw [List.filter_filter]
      congr 2
      apply List.filter_congr
      intro e _
      by_cases h : key e = c'
      · have hcc : c' ≠ c := fun hq => hc_notin (hq ▸ hc')
        simp [h, hcc]
      · simp [h]
    have hcov' : ∀ e ∈ l.filter (fun e => !decide (key e = c)), key e ∈ ks := by
      intro e he
      obtain ⟨hel, hkey⟩ := List.mem_filter.mp he
      have : key e ≠ c := by
        simpa using hkey
      rcases List.mem_cons.mp (hcov e hel) with h | h
      · exact absurd h this
      · exact h
    have hmap : (groupSums key ks l).map Prod.snd
        = (groupSums key ks (l.filter (fun e => !decide (key e = c)))).map Prod.snd := by
      unfold groupSums
      rw [List.map_map, List.map_map]
      exact List.map_congr_left (fun c' hc' => hfib c' hc')
    show fiberTotal key l c + ((groupSums key ks l).map Prod.snd).sum = _
    rw [hmap, ih _ hnd' hcov']
    exact sum_map_filter_add _ l

theorem byCategoryOf_snd_sum (l : List Expense) :
    ((byCategoryOf l).map Prod.snd).sum = (l.map (fun e => e.amount)).sum := by
  apply groupSums_snd_sum
  · exact List.nodup_dedup _
  · intro e he
    exact List.mem_dedup.mpr (List.mem_map_of_mem _ he)

/-- C1: `TotalAll(userId)` equals the sum of the `amount` field over all
expenses whose `user_id` equals the user's id, and when the user owns no
expenses the result is the successful value 0 (modelling `scalar() or 0.0`,
which turns the `NULL` scalar of an empty sum into `0.0`). -/
theorem C1_totalAll_sum (s : Store) (uid : Nat) :
    totalAll s uid = ((userExpenses s uid).map (fun e => e.amount)).sum ∧
      (userExpenses s uid = [] → totalAll s uid = 0) := by
  constructor
  · exact pyOrZero_sqlSumAmounts _
  · intro h
    show pyOrZero (sqlSumAmounts (userExpenses s uid)) = 0
    rw [h]
    rfl

/-- Witness for C1 at a concrete store in which user 1 owns nothing. -/
theorem C1_totalAll_sum_witness :
    totalAll { users := [], expenses := [] } 1 = 0 :=
  (C1_totalAll_sum { users := [], expenses := [] } 1).2 rfl

/-- C3: the per-category totals returned by `ByCategory(userId)` sum to
`TotalAll(userId)`. -/
theorem C3_byCategory_sums_to_totalAll (s : Store) (uid : Nat) :
    ((byCategory s uid).map Prod.snd).sum = totalAll s uid := by
  rw [(C1_totalAll_sum s uid).1]
  exact byCategoryOf_snd_sum _

/-- C5: the dashboard's current-month total equals the sum of the amounts of
the user's expenses dated on or after the first calendar day of the current
month (dates before it are excluded by the filter itself), and it is 0 when
no expense falls in that range. -/
theorem C5_monthlyExpensesTotal_sum (s : Store) (uid : Nat) (today : Date) :
    monthlyExpensesTotal s uid today
        = (((userExpenses s uid).filter
            (fun e => decide (firstDayOfMonth today ≤ e.date))).map
              (fun e => e.amount)).sum ∧
      ((userExpenses s uid).filter (fun e => decide (firstDayOfMonth today ≤ e.date)) = []
        → monthlyExpensesTotal s uid today = 0) := by
  constructor
  · exact pyOrZero_sqlSumAmounts _
  · intro h
    show pyOrZero (sqlSumAmounts _) = 0
    rw [h]
    rfl

/-- Witness for C5 at a concrete store whose single expense for user 1 is
dated before the first day of the month of `today = 2024-02-15`. -/
theorem C5_monthlyExpensesTotal_sum_witness :
    monthlyExpensesTotal
      { users := [],
        expenses := [{ id := 1, user_id := 1, amount := 7, category := "Food",
                       date := ⟨2024, 1, 20⟩ }] } 1 ⟨2024, 2, 15⟩ = 0 :=
  (C5_monthlyExpensesTotal_sum
    { users := [],
      expenses := [{ id := 1, user_id := 1, amount := 7, category := "Food",
                     date := ⟨2024, 1, 20⟩ }] } 1 ⟨2024, 2, 15⟩).2 (by decide)

/-- The spec's worked example store: user 1 owns $50 Food on 2024-01-05,
$30 Food on 2024-01-20 and $100 Transport on 2024-02-01. -/
def exampleStore : Store :=
  { users := [],
    expenses := [
      { id := 1, user_id := 1, amount := 50, category := "Food", date := ⟨2024, 1, 5⟩ },
      { id := 2, user_id := 1, amount := 30, category := "Food", date := ⟨2024, 1, 20⟩ },
      { id := 3, user_id := 1, amount := 100, category := "Transport", date := ⟨2024, 2, 1⟩ }] }

theorem filter_date_orderedInsert (d : Date) (a : Expense) (s : List Expense) :
    (List.orderedInsert recentRel a s).filter (fun e => decide (e.date = d))
      = (a :: s).filter (fun e => decide (e.date = d)) := by
  induction s with
  | nil => rfl
  | cons b t ih =>
    rw [List.orderedInsert]
    by_cases hr : recentRel a b
    · simp only [hr, if_true]
    · simp only [hr, if_false]
      by_cases ha : a.date = d
      · have hb : ¬ b.date = d := by
          intro hbd
          exact hr (show b.date ≤ a.date from hbd ▸ ha ▸ Date.le_refl d)
        simp only [List.filter_cons, ha, hb, decide_eq_true_eq, decide_eq_false hb,
          decide_eq_true (show a.date = d from ha)]
        rw [List.filter_cons] at ih
        simp only [decide_eq_true (show a.date = d from ha)] at ih
        simpa using ih
      · simp only [List.filter_cons] at ih ⊢
        simp only [decide_eq_false ha] at ih ⊢
        by_cases hb : b.date = d
        · simp only [decide_eq_true (show b.date = d from hb)]
          simp [ih]
        · simp only [decide_eq_false hb]
          simp [ih]

theorem filter_date_insertionSort (d : Date) (l : List Expense) :
    (List.insertionSort recentRel l).filter (fun e => decide (e.date = d))
      = l.filter (fun e => decide (e.date = d)) := by
  induction l with
  | nil => rfl
  | cons a t ih =>
    rw [List.insertionSort, filter_date_orderedInsert]
    simp only [List.filter_cons]
    rw [ih]

/-- C7: `RecentExpenses(userId, limit)` returns at most `limit` expenses, all
of them the user's, ordered by date descending; every returned expense is at
least as recent as every expense left out; and expenses sharing a date appear
in arrival (rowid) order — the per-date restriction of the output is a
subsequence of the per-date restriction of the rowid-ordered table.  The
operation is a pure function of the store, hence deterministic. -/
theorem C7_recentExpenses_spec (s : Store) (uid limit : Nat) :
    (recentExpenses s uid limit).length ≤ limit ∧
    List.Pairwise recentRel (recentExpenses s uid limit) ∧
    (∀ e ∈ recentExpenses s uid limit, e ∈ userExpenses s uid) ∧
    (∃ rest, (recentExpenses s uid limit ++ rest).Perm (userExpenses s uid) ∧
      ∀ a ∈ recentExpenses s uid limit, ∀ b ∈ rest, b.date ≤ a.date) ∧
    (∀ d : Date, ((recentExpenses s uid limit).filter (fun e => decide (e.date = d))).Sublist
      ((userExpenses s uid).filter (fun e => decide (e.date = d)))) := by
  have hsorted : List.Pairwise recentRel (List.insertionSort recentRel (userExpenses s uid)) :=
    List.sorted_insertionSort recentRel (userExpenses s uid)
  have hperm := List.perm_insertionSort recentRel (userExpenses s uid)
  refine ⟨?_, ?_, ?_, ?_, ?_⟩
  · show (List.take limit _).length ≤ limit
    rw [List.length_take]
    exact min_le_left _ _
  · exact List.Pairwise.sublist (List.take_sublist limit _) hsorted
  · intro e he
    exact hperm.subset ((List.take_sublist limit _).subset he)
  · refine ⟨(List.insertionSort recentRel (userExpenses s uid)).drop limit, ?_, ?_⟩
    · rw [show recentExpenses s uid limit
          = (List.insertionSort recentRel (userExpenses s uid)).take limit from rfl,
        List.take_append_drop]
      exact hperm
    · intro a ha b hb
      have := List.pairwise_append.mp
        ((List.take_append_drop limit
          (List.insertionSort recentRel (userExpenses s uid))).symm ▸ hsorted)
      exact this.2.2 a ha b hb
  · intro d
    have h1 : ((recentExpenses s uid limit).filter (fun e => decide (e.date = d))).Sublist
        ((List.insertionSort recentRel (userExpenses s uid)).filter
          (fun e => decide (e.date = d))) :=
      (List.take_sublist limit _).filter _
    rwa [filter_date_insertionSort] at h1

/-- Witness for C7: on the spec's example store, `RecentExpenses(1, 2)` is
the two most recent expenses, by date descending. -/
theorem C7_recentExpenses_spec_witness :
    (recentExpenses exampleStore 1 2).length ≤ 2 ∧
      (recentExpenses exampleStore 1 2).map (fun e => (e.category, e.amount, e.date))
        = [("Transport", 100, ⟨2024, 2, 1⟩), ("Food", 30, ⟨2024, 1, 20⟩)] :=
  ⟨(C7_recentExpenses_spec exampleStore 1 2).1, by decide⟩

theorem groupSums_map_fst (key : Expense → String) (ks : List String) (l : List Expense) :
    (groupSums key ks l).map Prod.fst = ks := by
  unfold groupSums
  rw [List.map_map]
  exact List.map_id ks

/-- C4: `MonthlyTrend(userId, sinceDate)` buckets the user's expenses with
`date >= sinceDate` by the `YYYY-MM` label derived from each expense's date;
the output labels are strictly ascending (so also duplicate-free), each
bucket's total is the sum of the amounts carrying that label, every in-window
expense's label occurs, and every output label is the label of some in-window
expense. -/
theorem C4_monthlyTrend_spec (s : Store) (uid : Nat) (since : Date) :
    ((monthlyTrend s uid since).map Prod.fst).Pairwise strLt ∧
    (∀ p ∈ monthlyTrend s uid since,
      p.2 = ((((userExpenses s uid).filter (fun e => decide (since ≤ e.date))).filter
          (fun e => decide (strftimeYM e.date = p.1))).map (fun e => e.amount)).sum) ∧
    (∀ e ∈ userExpenses s uid, since ≤ e.date →
      strftimeYM e.date ∈ (monthlyTrend s uid since).map Prod.fst) ∧
    (∀ c ∈ (monthlyTrend s uid since).map Prod.fst,
      ∃ e ∈ userExpenses s uid, since ≤ e.date ∧ strftimeYM e.date = c) := by
  have hfst : (monthlyTrend s uid since).map Prod.fst
      = List.insertionSort strLe
          ((((userExpenses s uid).filter (fun e => decide (since ≤ e.date))).map
            (fun e => strftimeYM e.date)).dedup) := by
    unfold monthlyTrend
    exact groupSums_map_fst _ _ _
  have hperm := List.perm_insertionSort strLe
    ((((userExpenses s uid).filter (fun e => decide (since ≤ e.date))).map
      (fun e => strftimeYM e.date)).dedup)
  refine ⟨?_, ?_, ?_, ?_⟩
  · rw [hfst]
    have hsorted : List.Sorted strLe
        (List.insertionSort strLe
          ((((userExpenses s uid).filter (fun e => decide (since ≤ e.date))).map
            (fun e => strftimeYM e.date)).dedup)) :=
      List.sorted_insertionSort _ _
    have hnodup := hperm.nodup_iff.mpr (List.nodup_dedup _)
    have hand := List.Pairwise.and hsorted hnodup
    exact hand.imp (fun hab => strLt_of_strLe_of_ne hab.1 hab.2)
  · intro p hp
    unfold monthlyTrend groupSums at hp
    obtain ⟨c, _, hpc⟩ := List.mem_map.mp hp
    rw [← hpc]
    rfl
  · intro e he hsince
    rw [hfst]
    rw [List.Perm.mem_iff hperm, List.mem_dedup]
    exact List.mem_map_of_mem _
      (List.mem_filter.mpr ⟨he, decide_eq_true hsince⟩)
  · intro c hc
    rw [hfst, List.Perm.mem_iff hperm, List.mem_dedup] at hc
    obtain ⟨e, he, hec⟩ := List.mem_map.mp hc
    obtain ⟨he', hdate⟩ := List.mem_filter.mp he
    exact ⟨e, he', of_decide_eq_true hdate, hec⟩

/-- Witness for C4: on the spec's example store, the 180-day trend window
starting 2023-12-01 yields the buckets 2024-01 (80) and 2024-02 (100) in
ascending label order. -/
theorem C4_monthlyTrend_spec_witness :
    ((monthlyTrend exampleStore 1 ⟨2023, 12, 1⟩).map Prod.fst).Pairwise strLt ∧
      monthlyTrend exampleStore 1 ⟨2023, 12, 1⟩ = [("2024-01", 80), ("2024-02", 100)] :=
  ⟨(C4_monthlyTrend_spec exampleStore 1 ⟨2023, 12, 1⟩).1, by decide⟩

theorem strftimeY_eq_numStr_iff {d : Date} {year : Nat} (h : 1000 ≤ year) :
    strftimeY d = numStr year ↔ d.year = year := by
  rw [← padNum_four_eq_numStr h]
  exact ⟨padNum_injective, fun h' => by rw [strftimeY, h']⟩

theorem strftimeM_eq_zfill_iff {d : Date} {month : Nat} :
    strftimeM d = zfill 2 (numStr month) ↔ d.month = month := by
  rw [zfill_numStr]
  exact ⟨padNum_injective, fun h' => by rw [strftimeM, h']⟩

theorem strftimeM_eq_padNum_iff {d : Date} {month : Nat} :
    strftimeM d = padNum 2 month ↔ d.month = month :=
  ⟨padNum_injective, fun h' => by rw [strftimeM, h']⟩

/-- The store whose single expense is dated in the three-digit year 999 —
SQLite renders its year as `"0999"` while Python's `str` renders the query
year as `"999"`, so the year filters of `get_monthly_expenses` and of the
dashboard's yearly summary match nothing. -/
def year999Store : Store :=
  { users := [],
    expenses := [
      { id := 1, user_id := 1, amount := 5, category := "Food", date := ⟨999, 3, 1⟩ }] }

/-- Counterexample to C6 as stated: for `year = 999`, `month = 3`, the code's
string comparison `strftime('%Y', date) == str(999)` compares `"0999"` with
`"999"` and fails, so `ByCategoryInMonth` misses the expense dated 0999-03-01
even though its calendar components match the query. -/
theorem C6_counterexample_year999 :
    ¬ (getMonthlyExpenses year999Store 1 999 3
        = byCategoryOf ((userExpenses year999Store 1).filter
            (fun e => decide (e.date.year = 999 ∧ e.date.month = 3)))) := by
  decide

/-- C6 (amended): for every user, every month ≥ 1 and every year whose
decimal rendering has at least four digits (`1000 ≤ year` — for three-digit
years the code's comparison of the zero-padded `strftime('%Y')` against the
unpadded `str(year)` never matches, and a zero year or month is falsy in
Python and disables that filter), `ByCategoryInMonth(userId, year, month)`
returns the per-category sums over exactly the user's expenses whose date
components equal the given year and month. -/
theorem C6_getMonthlyExpenses_components (s : Store) (uid : Nat) (year month : Nat)
    (hy : 1000 ≤ year) (hm : 1 ≤ month) :
    getMonthlyExpenses s uid year month
      = byCategoryOf ((userExpenses s uid).filter
          (fun e => decide (e.date.year = year ∧ e.date.month = month))) := by
  have hy0 : year ≠ 0 := by omega
  have hm0 : month ≠ 0 := by omega
  unfold getMonthlyExpenses
  simp only [hy0, hm0, ne_eq, not_false_eq_true, if_true, ite_true]
  rw [List.filter_filter]
  congr 1
  apply List.filter_congr
  intro e _
  rw [← Bool.decide_and]
  apply decide_eq_decide.mpr
  rw [strftimeM_eq_zfill_iff, strftimeY_eq_numStr_iff hy]
  exact ⟨fun h => ⟨h.2, h.1⟩, fun h => ⟨h.2, h.1⟩⟩

/-- Witness for C6 on the spec's example store: January 2024 contains only
the two Food expenses, totalling 80. -/
theorem C6_getMonthlyExpenses_components_witness :
    getMonthlyExpenses exampleStore 1 2024 1 = [("Food", 80)] ∧
      byCategoryOf ((userExpenses exampleStore 1).filter
        (fun e => decide (e.date.year = 2024 ∧ e.date.month = 1))) = [("Food", 80)] := by
  have h := C6_getMonthlyExpenses_components exampleStore 1 2024 1
    (by decide) (by decide)
  exact ⟨by rw [h]; decide, by decide⟩

theorem applyYearlyRow_length (acc : List Int) (r : String × Int) :
    (applyYearlyRow acc r).length = acc.length := by
  show (if 0 ≤ (parseNat r.1 : Int) - 1 ∧ (parseNat r.1 : Int) - 1 < 12
      then acc.set ((parseNat r.1 : Int) - 1).toNat r.2 else acc).length = acc.length
  split
  · exact List.length_set acc _ _
  · rfl

theorem foldl_applyYearlyRow_length :
    ∀ (rows : List (String × Int)) (acc : List Int),
      (rows.foldl applyYearlyRow acc).length = acc.length := by
  intro rows
  induction rows with
  | nil => intro acc; rfl
  | cons r rows ih =>
    intro acc
    rw [List.foldl_cons, ih, applyYearlyRow_length]

theorem applyYearlyRow_getD_ne (acc : List Int) (r : String × Int) (j : Nat)
    (h : parseNat r.1 ≠ j + 1) :
    (applyYearlyRow acc r).getD j 0 = acc.getD j 0 := by
  show (if 0 ≤ (parseNat r.1 : Int) - 1 ∧ (parseNat r.1 : Int) - 1 < 12
      then acc.set ((parseNat r.1 : Int) - 1).toNat r.2 else acc).getD j 0 = acc.getD j 0
  split
  case isTrue hg =>
    rw [List.getD_eq_getElem?_getD, List.getD_eq_getElem?_getD, List.getElem?_set_ne]
    omega
  case isFalse hg => rfl

theorem applyYearlyRow_getD_eq (acc : List Int) (r : String × Int) (j : Nat)
    (hlen : acc.length = 12) (h : parseNat r.1 = j + 1) (hj : j < 12) :
    (applyYearlyRow acc r).getD j 0 = r.2 := by
  show (if 0 ≤ (parseNat r.1 : Int) - 1 ∧ (parseNat r.1 : Int) - 1 < 12
      then acc.set ((parseNat r.1 : Int) - 1).toNat r.2 else acc).getD j 0 = r.2
  rw [if_pos (by constructor <;> omega)]
  rw [List.getD_eq_getElem?_getD]
  have hidx : ((parseNat r.1 : Int) - 1).toNat = j := by omega
  rw [hidx, List.getElem?_set_self (by omega)]
  rfl

theorem foldl_applyYearlyRow_getD :
    ∀ (rows : List (String × Int)) (acc : List Int) (m : Nat),
      acc.length = 12 → 1 ≤ m → m ≤ 12 →
      (∀ r ∈ rows, 1 ≤ parseNat r.1 ∧ parseNat r.1 ≤ 12) →
      (rows.map (fun r => parseNat r.1)).Nodup →
      (rows.foldl applyYearlyRow acc).getD (m - 1) 0
        = (match rows.find? (fun r => decide (parseNat r.1 = m)) with
           | some r => r.2
           | none => acc.getD (m - 1) 0) := by
  intro rows
  induction rows with
  | nil => intro acc m _ _ _ _ _; rfl
  | cons r rows ih =>
    intro acc m hlen hm1 hm2 hb hnd
    rw [List.map_cons, List.nodup_cons] at hnd
    have hb_head := hb r (List.mem_cons_self r rows)
    have hb_tail : ∀ r' ∈ rows, 1 ≤ parseNat r'.1 ∧ parseNat r'.1 ≤ 12 :=
      fun r' h' => hb r' (List.mem_cons_of_mem r h')
    rw [List.foldl_cons]
    rw [ih (applyYearlyRow acc r) m (by rw [applyYearlyRow_length]; exact hlen)
      hm1 hm2 hb_tail hnd.2]
    by_cases hpm : parseNat r.1 = m
    · have hnone : rows.find? (fun r' => decide (parseNat r'.1 = m)) = none := by
        apply List.find?_eq_none.mpr
        intro x hx
        simp only [decide_eq_true_eq]
        intro hxm
        refine hnd.1 (List.mem_map.mpr ⟨x, hx, ?_⟩)
        show parseNat x.1 = parseNat r.1
        rw [hxm, hpm]
      have hfind : (r :: rows).find? (fun r' => decide (parseNat r'.1 = m)) = some r := by
        simp [List.find?_cons, hpm]
      rw [hnone, hfind]
      exact applyYearlyRow_getD_eq acc r (m - 1) hlen (by omega) (by omega)
    · have hfind : (r :: rows).find? (fun r' => decide (parseNat r'.1 = m))
          = rows.find? (fun r' => decide (parseNat r'.1 = m)) := by
        simp [List.find?_cons, hpm]
      rw [hfind]
      cases hf : rows.find? (fun r' => decide (parseNat r'.1 = m)) with
      | some r' => rfl
      | none =>
        exact applyYearlyRow_getD_ne acc r (m - 1) (by omega)

theorem find?_groupSums (key : Expense → String) (l : List Expense) (p : String → Bool) :
    ∀ (ks : List String) (c : String), c ∈ ks → p c = true →
      (∀ c' ∈ ks, p c' = true → c' = c) →
      (groupSums key ks l).find? (fun r => p r.1) = some (c, fiberTotal key l c) := by
  intro ks
  induction ks with
  | nil => intro c hc _ _; exact absurd hc (List.not_mem_nil c)
  | cons c₀ ks ih =>
    intro c hc hp huniq
    show ((c₀, fiberTotal key l c₀) :: groupSums key ks l).find? (fun r => p r.1) = _
    rw [List.find?_cons]
    by_cases h₀ : p c₀ = true
    · rw [h₀]
      rw [huniq c₀ (List.mem_cons_self c₀ ks) h₀]
    · rw [Bool.eq_false_iff.mpr h₀]
      have hcc : c ∈ ks := by
        rcases List.mem_cons.mp hc with h | h
        · exact absurd (h ▸ hp) h₀
        · exact h
      exact ih c hcc hp (fun c' h' hp' => huniq c' (List.mem_cons_of_mem c₀ h') hp')

/-- Counterexample to C2 as stated: for `year = 999` the dashboard's filter
compares the padded `strftime('%Y')` value `"0999"` with `str(999) = "999"`,
matches nothing, and produces an all-zero series even though the user has an
expense of 5 in month 3 of year 999. -/
theorem C2_counterexample_year999 :
    ¬ ((yearlySeries year999Store 1 999).getD (3 - 1) 0
        = (((userExpenses year999Store 1).filter
            (fun e => decide (e.date.year = 999 ∧ e.date.month = 3))).map
              (fun e => e.amount)).sum) := by
  decide

/-- C2 (amended): for every user and every year whose decimal rendering has
at least four digits (`1000 ≤ year` — for shorter years the code's comparison
of the padded `strftime('%Y')` against the unpadded `str(year)` never
matches), on a store of valid dates `YearlySeries(userId, year)` has exactly
12 entries, and the entry at index `m - 1` (months `m = 1..12`) is the sum of
the amounts of the user's expenses with calendar year `year` and month `m`;
months without expenses keep the zero-filled entry 0. -/
theorem C2_yearlySeries_spec (s : Store) (uid year : Nat)
    (hv : s.ValidDates) (hy : 1000 ≤ year) :
    (yearlySeries s uid year).length = 12 ∧
    ∀ m, 1 ≤ m → m ≤ 12 →
      (yearlySeries s uid year).getD (m - 1) 0
        = (((userExpenses s uid).filter
            (fun e => decide (e.date.year = year ∧ e.date.month = m))).map
              (fun e => e.amount)).sum := by
  set L := (userExpenses s uid).filter
    (fun e => decide (strftimeY e.date = numStr year)) with hL
  set KS := (L.map (fun e => strftimeM e.date)).dedup with hKS
  have hseries : yearlySeries s uid year
      = (groupSums (fun e => strftimeM e.date) KS L).foldl applyYearlyRow
          (List.replicate 12 0) := rfl
  have hLmem : ∀ e ∈ L, e.date.Valid := by
    intro e he
    exact hv e (List.mem_filter.mp (List.mem_filter.mp he).1).1
  have hks_label : ∀ c ∈ KS, ∃ e ∈ L, strftimeM e.date = c := by
    intro c hc
    obtain ⟨e, he, hec⟩ := List.mem_map.mp (List.mem_dedup.mp hc)
    exact ⟨e, he, hec⟩
  have hks_pad : ∀ c ∈ KS, c = padNum 2 (parseNat c) ∧
      1 ≤ parseNat c ∧ parseNat c ≤ 12 := by
    intro c hc
    obtain ⟨e, he, hec⟩ := hks_label c hc
    have hval := hLmem e he
    have hc_pad : c = padNum 2 e.date.month := by rw [← hec]; rfl
    have hparse : parseNat c = e.date.month := by rw [hc_pad, parseNat_padNum]
    refine ⟨?_, ?_, ?_⟩
    · rw [hparse, ← hc_pad]
    · rw [hparse]; exact hval.2.2.1
    · rw [hparse]; exact hval.2.2.2.1
  have hbounds : ∀ r ∈ groupSums (fun e => strftimeM e.date) KS L,
      1 ≤ parseNat r.1 ∧ parseNat r.1 ≤ 12 := by
    intro r hr
    have hr1 : r.1 ∈ KS := by
      have := List.mem_map_of_mem Prod.fst hr
      rwa [groupSums_map_fst] at this
    exact (hks_pad r.1 hr1).2
  have hnodup : ((groupSums (fun e => strftimeM e.date) KS L).map
      (fun r => parseNat r.1)).Nodup := by
    have hmm : (groupSums (fun e => strftimeM e.date) KS L).map (fun r => parseNat r.1)
        = KS.map parseNat := by
      unfold groupSums
      rw [List.map_map]
      rfl
    rw [hmm]
    apply List.Nodup.map_on _ (List.nodup_dedup _)
    intro c hc c' hc' hpp
    rw [(hks_pad c hc).1, (hks_pad c' hc').1, hpp]
  constructor
  · rw [hseries, foldl_applyYearlyRow_length, List.length_replicate]
  · intro m hm1 hm2
    rw [hseries, foldl_applyYearlyRow_getD _ _ m (List.length_replicate 12 0)
      hm1 hm2 hbounds hnodup]
    have hfilters : L.filter (fun e => decide (strftimeM e.date = padNum 2 m))
        = (userExpenses s uid).filter
            (fun e => decide (e.date.year = year ∧ e.date.month = m)) := by
      rw [hL, List.filter_filter]
      apply List.filter_congr
      intro e _
      rw [← Bool.decide_and]
      apply decide_eq_decide.mpr
      rw [strftimeM_eq_padNum_iff, strftimeY_eq_numStr_iff hy]
      exact ⟨fun h => ⟨h.2, h.1⟩, fun h => ⟨h.2, h.1⟩⟩
    by_cases hmem : padNum 2 m ∈ KS
    · rw [find?_groupSums (fun e => strftimeM e.date) L
        (fun c => decide (parseNat c = m)) KS (padNum 2 m) hmem
        (by simp [parseNat_padNum])
        (by
          intro c' hc' hp'
          have hpc' : parseNat c' = m := of_decide_eq_true hp'
          rw [(hks_pad c' hc').1, hpc'])]
      show fiberTotal (fun e => strftimeM e.date) L (padNum 2 m) = _
      unfold fiberTotal
      rw [hfilters]
    · have hnone : (groupSums (fun e => strftimeM e.date) KS L).find?
          (fun r => decide (parseNat r.1 = m)) = none := by
        apply List.find?_eq_none.mpr
        intro r hr
        simp only [decide_eq_true_eq]
        intro hpm
        have hr1 : r.1 ∈ KS := by
          have := List.mem_map_of_mem Prod.fst hr
          rwa [groupSums_map_fst] at this
        apply hmem
        rw [← hpm, ← (hks_pad r.1 hr1).1]
        exact hr1
      rw [hnone]
      have hempty : (userExpenses s uid).filter
          (fun e => decide (e.date.year = year ∧ e.date.month = m)) = [] := by
        apply List.filter_eq_nil_iff.mpr
        intro e he
        simp only [decide_eq_true_eq]
        rintro ⟨hyear, hmonth⟩
        apply hmem
        have heL : e ∈ L := by
          rw [hL]
          exact List.mem_filter.mpr
            ⟨he, decide_eq_true ((strftimeY_eq_numStr_iff hy).mpr hyear)⟩
        have : strftimeM e.date = padNum 2 m := by
          rw [show strftimeM e.date = padNum 2 e.date.month from rfl, hmonth]
        rw [← this]
        exact List.mem_dedup.mpr (List.mem_map_of_mem _ heL)
      rw [hempty]
      show (List.replicate 12 (0 : Int)).getD (m - 1) 0 = _
      rw [List.getD_eq_getElem?_getD, List.getElem?_replicate]
      simp [show m - 1 < 12 by omega]

/-- Witness for C2 on the spec's example store: the 2024 series has 12
entries and its January entry (index 0) is the January sum 80. -/
theorem C2_yearlySeries_spec_witness :
    (yearlySeries exampleStore 1 2024).length = 12 ∧
      (yearlySeries exampleStore 1 2024).getD 0 0
        = (((userExpenses exampleStore 1).filter
            (fun e => decide (e.date.year = 2024 ∧ e.date.month = 1))).map
              (fun e => e.amount)).sum :=
  ⟨(C2_yearlySeries_spec exampleStore 1 2024 (by decide) (by decide)).1,
   (C2_yearlySeries_spec exampleStore 1 2024 (by decide) (by decide)).2 1
     (by decide) (by decide)⟩

/-- C8: every dashboard aggregation is read-only — the store the `index`
route leaves behind is the store it was given (the route issues only SELECT
queries) — and none of the aggregations fails on an empty result set: a user
owning no expenses gets total 0, current-month total 0, an empty category
breakdown (also for any month filter), an empty trend, a twelve-zero yearly
series and no recent expenses. -/
theorem C8_aggregations_read_only (s : Store) (uid : Nat) (today since : Date) :
    (dashboardIndex s uid today since).1 = s ∧
    (userExpenses s uid = [] →
      totalAll s uid = 0 ∧
      monthlyExpensesTotal s uid today = 0 ∧
      byCategory s uid = [] ∧
      (∀ year month, getMonthlyExpenses s uid year month = []) ∧
      monthlyTrend s uid since = [] ∧
      yearlySeries s uid today.year = List.replicate 12 0 ∧
      (∀ limit, recentExpenses s uid limit = [])) := by
  refine ⟨rfl, fun h => ⟨?_, ?_, ?_, ?_, ?_, ?_, ?_⟩⟩
  · show pyOrZero (sqlSumAmounts (userExpenses s uid)) = 0
    rw [h]
    rfl
  · show pyOrZero (sqlSumAmounts ((userExpenses s uid).filter _)) = 0
    rw [h]
    rfl
  · show byCategoryOf (userExpenses s uid) = []
    rw [h]
    rfl
  · intro year month
    unfold getMonthlyExpenses
    rw [h]
    simp [ite_self]
    rfl
  · unfold monthlyTrend
    rw [h]
    rfl
  · show (yearlyRows s uid today.year).foldl applyYearlyRow (List.replicate 12 0) = _
    unfold yearlyRows
    rw [h]
    rfl
  · intro limit
    unfold recentExpenses
    rw [h]
    simp

/-- Witness for C8 at a concrete store that holds only another user's
expense, so user 1's result set is empty. -/
theorem C8_aggregations_read_only_witness :
    (dashboardIndex
        { users := [],
          expenses := [{ id := 1, user_id := 2, amount := 9, category := "Food",
                         date := ⟨2024, 3, 3⟩ }] } 1 ⟨2024, 5, 15⟩ ⟨2023, 11, 17⟩).1
      = { users := [],
          expenses := [{ id := 1, user_id := 2, amount := 9, category := "Food",
                         date := ⟨2024, 3, 3⟩ }] } ∧
    totalAll
      { users := [],
        expenses := [{ id := 1, user_id := 2, amount := 9, category := "Food",
                       date := ⟨2024, 3, 3⟩ }] } 1 = 0 :=
  ⟨(C8_aggregations_read_only _ 1 ⟨2024, 5, 15⟩ ⟨2023, 11, 17⟩).1,
   ((C8_aggregations_read_only _ 1 ⟨2024, 5, 15⟩ ⟨2023, 11, 17⟩).2 (by decide)).1⟩

/-- The registration uniqueness invariant: no two users share a username and
no two share an email. -/
def usersUnique (s : Store) : Prop :=
  (s.users.map (fun u => u.username)).Nodup ∧ (s.users.map (fun u => u.email)).Nodup

instance (s : Store) : Decidable (usersUnique s) := by
  unfold usersUnique; infer_instance

/-- C9: starting from a store satisfying the uniqueness invariant, a rejected
registration (username or email already taken) leaves the user table
unchanged; a successful one appends exactly one user whose username and email
differ from every pre-existing user's; and in all cases the invariant still
holds afterwards. -/
theorem C9_register_preserves_unique (s : Store) (username email pwhash : String)
    (h : usersUnique s) :
    ((register s username email pwhash).2 ≠ .ok →
      (register s username email pwhash).1 = s) ∧
    ((register s username email pwhash).2 = .ok →
      ∃ u, (register s username email pwhash).1.users = s.users ++ [u] ∧
        u.username = username ∧ u.email = email ∧
        (∀ v ∈ s.users, v.username ≠ username ∧ v.email ≠ email)) ∧
    usersUnique (register s username email pwhash).1 := by
  cases hfu : s.users.find? (fun u => decide (u.username = username)) with
  | some u₀ =>
    have hreg : register s username email pwhash = (s, .usernameExists) := by
      unfold register
      rw [hfu]
    rw [hreg]
    refine ⟨fun _ => rfl, fun habs => ?_, h⟩
    exact nomatch habs
  | none =>
    have hfreshu : ∀ v ∈ s.users, v.username ≠ username := by
      intro v hv
      have := List.find?_eq_none.mp hfu v hv
      simpa using this
    cases hfe : s.users.find? (fun u => decide (u.email = email)) with
    | some u₁ =>
      have hreg : register s username email pwhash = (s, .emailExists) := by
        unfold register
        rw [hfu, hfe]
      rw [hreg]
      refine ⟨fun _ => rfl, fun habs => ?_, h⟩
      exact nomatch habs
    | none =>
      have hfreshe : ∀ v ∈ s.users, v.email ≠ email := by
        intro v hv
        have := List.find?_eq_none.mp hfe v hv
        simpa using this
      have hreg : register s username email pwhash
          = ({ s with users := s.users ++ [⟨nextUserId s, username, email, pwhash,
                if s.users.length = 0 then "admin" else "user"⟩] }, .ok) := by
        unfold register
        rw [hfu, hfe]
      rw [hreg]
      refine ⟨fun habs => absurd rfl habs, fun _ => ⟨⟨nextUserId s, username, email,
        pwhash, if s.users.length = 0 then "admin" else "user"⟩, rfl, rfl, rfl,
        fun v hv => ⟨hfreshu v hv, hfreshe v hv⟩⟩, ?_, ?_⟩
      · show ((s.users ++ [(⟨nextUserId s, username, email, pwhash,
            if s.users.length = 0 then "admin" else "user"⟩ : UserRec)]).map
              (fun u => u.username)).Nodup
        rw [List.map_append]
        rw [List.nodup_append]
        refine ⟨h.1, List.nodup_singleton _, ?_⟩
        intro x hx
        obtain ⟨v, hv, hvx⟩ := List.mem_map.mp hx
        simp only [List.map_cons, List.map_nil, List.mem_singleton]
        intro hxu
        exact hfreshu v hv (by rw [hvx, hxu])
      · show ((s.users ++ [(⟨nextUserId s, username, email, pwhash,
            if s.users.length = 0 then "admin" else "user"⟩ : UserRec)]).map
              (fun u => u.email)).Nodup
        rw [List.map_append]
        rw [List.nodup_append]
        refine ⟨h.2, List.nodup_singleton _, ?_⟩
        intro x hx
        obtain ⟨v, hv, hvx⟩ := List.mem_map.mp hx
        simp only [List.map_cons, List.map_nil, List.mem_singleton]
        intro hxu
        exact hfreshe v hv (by rw [hvx, hxu])

/-- A store holding exactly one already-registered user. -/
def oneUserStore : Store :=
  { users := [{ id := 1, username := "alice", email := "alice@example.com",
                password_hash := "h1", role := "admin" }],
    expenses := [] }

/-- Witness for C9: registering the taken username `alice` leaves the store
unchanged, and registering a fresh user keeps the invariant. -/
theorem C9_register_preserves_unique_witness :
    (register oneUserStore "alice" "new@example.com" "h2").1 = oneUserStore ∧
      usersUnique (register oneUserStore "bob" "bob@example.com" "h2").1 :=
  ⟨(C9_register_preserves_unique oneUserStore "alice" "new@example.com" "h2"
      (by decide)).1 (by decide),
   (C9_register_preserves_unique oneUserStore "bob" "bob@example.com" "h2"
      (by decide)).2.2⟩

/-- C10: a user registered into an empty user table gets role `'admin'`
(and the registration succeeds), while a successful registration into a
non-empty table appends a user with the column-default role `'user'` — the
very first registered account is the admin. -/
theorem C10_first_user_admin (s : Store) (username email pwhash : String) :
    (s.users = [] →
      (register s username email pwhash).2 = .ok ∧
      ∃ u, (register s username email pwhash).1.users = [u] ∧ u.role = "admin") ∧
    (s.users ≠ [] → (register s username email pwhash).2 = .ok →
      ∃ u, (register s username email pwhash).1.users = s.users ++ [u]
        ∧ u.role = "user") := by
  constructor
  · intro h
    have hreg : register s username email pwhash
        = ({ s with users := s.users ++ [⟨nextUserId s, username, email, pwhash,
              "admin"⟩] }, .ok) := by
      unfold register
      rw [h]
      rfl
    rw [hreg]
    exact ⟨rfl, ⟨nextUserId s, username, email, pwhash, "admin"⟩, by rw [h]; rfl, rfl⟩
  · intro hne hok
    cases hfu : s.users.find? (fun u => decide (u.username = username)) with
    | some u₀ =>
      have hreg : register s username email pwhash = (s, .usernameExists) := by
        unfold register
        rw [hfu]
      rw [hreg] at hok
      exact absurd hok (by intro hh; exact nomatch hh)
    | none =>
      cases hfe : s.users.find? (fun u => decide (u.email = email)) with
      | some u₁ =>
        have hreg : register s username email pwhash = (s, .emailExists) := by
          unfold register
          rw [hfu, hfe]
        rw [hreg] at hok
        exact absurd hok (by intro hh; exact nomatch hh)
      | none =>
        have hlen : ¬ s.users.length = 0 := by
          intro h0
          exact hne (List.length_eq_zero.mp h0)
        have hreg : register s username email pwhash
            = ({ s with users := s.users ++ [⟨nextUserId s, username, email, pwhash,
                  "user"⟩] }, .ok) := by
          unfold register
          rw [hfu, hfe]
          simp [hlen]
        rw [hreg]
        exact ⟨⟨nextUserId s, username, email, pwhash, "user"⟩, rfl, rfl⟩

/-- Witness for C10: the first registered account is the admin, and a second
successful registration gets role `'user'`. -/
theorem C10_first_user_admin_witness :
    ((register { users := [], expenses := [] } "alice" "alice@example.com" "h1").2
        = RegisterResult.ok ∧
      ∃ u, (register { users := [], expenses := [] }
          "alice" "alice@example.com" "h1").1.users = [u] ∧ u.role = "admin") ∧
    (∃ u, (register oneUserStore "bob" "bob@example.com" "h2").1.users
        = oneUserStore.users ++ [u] ∧ u.role = "user") :=
  ⟨(C10_first_user_admin { users := [], expenses := [] }
      "alice" "alice@example.com" "h1").1 rfl,
   (C10_first_user_admin oneUserStore "bob" "bob@example.com" "h2").2
     (by decide) (by decide)⟩

end ExpenseTracker
